import Mathlib

/-!
Verification development for the tiling-arrangement core of the penrose
window manager.  The definitions below are a shallow embedding of the Rust
sources under `src/core`:

* `src/core/manager/util.rs`    — `pad_region`, `position_floating_client`
* `src/core/manager/layout.rs`  — `apply_layout`, `layout_visible`
* `src/core/layout/layout.rs`   — `Layout`, `LayoutConf` and the knob updates

Machine integers (`u32`) are modelled as `Nat`; `f32` is modelled as `ℚ`.
Rust subtraction sites are always guarded in the source before they execute,
so plain `Nat` arithmetic agrees with the `u32` arithmetic of the source on
all inputs where the source does not overflow.
-/

namespace Penrose

/-- Window identifier (`Xid = u32` in the source). -/
abbrev Xid := Nat

/-- `Region { x, y, w, h }` from `data_types.rs`: an absolute pixel rectangle. -/
structure Region where
  x : Nat
  y : Nat
  w : Nat
  h : Nat
deriving DecidableEq, Repr

/-- `Region::new` -/
def Region.new (x y w h : Nat) : Region := ⟨x, y, w, h⟩

/-- `Region::values` -/
def Region.values (r : Region) : Nat × Nat × Nat × Nat := (r.x, r.y, r.w, r.h)

/-- `LayoutConf` from `src/core/layout/layout.rs`. -/
structure LayoutConf where
  floating : Bool
  gapless : Bool
  follow_focus : Bool
  allow_wrapping : Bool
deriving DecidableEq, Repr

/-- `impl Default for LayoutConf` -/
def LayoutConf.default : LayoutConf :=
  { floating := false
    gapless := false
    follow_focus := false
    allow_wrapping := true }

/-- `Change` from `data_types.rs`: knob increment / decrement selector. -/
inductive Change where
  | More
  | Less
deriving DecidableEq, Repr

/-- A managed client.  The arrangement core only ever consults a client's id,
so the record is abstracted to that single field. -/
structure Client where
  id : Xid
deriving DecidableEq, Repr

/-- `ResizeAction = (WinId, Option<Region>)`: place the window at the region,
or hide it (`none`). -/
abbrev ResizeAction := Xid × Option Region

/-- `LayoutFunc`: the injected placement strategy of a `Layout`. -/
abbrev LayoutFunc := List Client → Option Xid → Region → Nat → ℚ → List ResizeAction

/-- `Layout` from `src/core/layout/layout.rs`. -/
structure Layout where
  conf : LayoutConf
  symbol : String
  max_main : Nat
  ratio : ℚ
  f : Option LayoutFunc

/-- `impl PartialEq for Layout`: field-wise comparison that ignores `f`. -/
def Layout.eq (a b : Layout) : Bool :=
  decide (a.conf = b.conf) && decide (a.symbol = b.symbol)
    && decide (a.max_main = b.max_main) && decide (a.ratio = b.ratio)

/-- Modelled from the spec: `layouts::floating` (the built-in floating layout
function, whose file is not part of the sources at hand) "always yields an
empty tiled-decision sequence". -/
def layouts.floating : LayoutFunc := fun _ _ _ _ _ => []

/-- `Layout::new` -/
def Layout.new (symbol : String) (conf : LayoutConf) (f : LayoutFunc)
    (max_main : Nat) (ratio : ℚ) : Layout :=
  { symbol := symbol
    conf := conf
    max_main := max_main
    ratio := ratio
    f := some f }

/-- `Layout::floating` -/
def Layout.floating (symbol : String) : Layout :=
  { symbol := symbol
    conf :=
      { floating := true
        gapless := false
        follow_focus := false
        allow_wrapping := true }
    f := some layouts.floating
    max_main := 1
    ratio := 1 }

/-- `Layout::arrange`.  The source calls `self.f.expect("missing layout
function")`; the panic branch is modelled as `none`. -/
def Layout.arrange (l : Layout) (clients : List Client) (focused : Option Xid)
    (r : Region) : Option (List ResizeAction) :=
  l.f.map (fun f => f clients focused r l.max_main l.ratio)

/-- `Layout::update_max_main` -/
def Layout.update_max_main (l : Layout) (change : Change) : Layout :=
  match change with
  | Change.More => { l with max_main := l.max_main + 1 }
  | Change.Less =>
    if l.max_main > 0 then { l with max_main := l.max_main - 1 } else l

/-- `Layout::update_main_ratio`: apply the change, then clamp into `[0, 1]`. -/
def Layout.update_main_ratio (l : Layout) (change : Change) (step : ℚ) : Layout :=
  let l1 :=
    match change with
    | Change.More => { l with ratio := l.ratio + step }
    | Change.Less => { l with ratio := l.ratio - step }
  if l1.ratio < 0 then { l1 with ratio := 0 }
  else if l1.ratio > 1 then { l1 with ratio := 1 }
  else l1

/-- `client_breakdown` from `src/core/layout/layout.rs`. -/
def client_breakdown {T : Type} (clients : List T) (n_main : Nat) : Nat × Nat :=
  let n := clients.length
  if n ≤ n_main then (n, 0) else (n_main, n - n_main)

/-- `pad_region` from `src/core/manager/util.rs`.  (The source destructures
`region.values()`; field access is used directly here.) -/
def pad_region (region : Region) (gapless : Bool) (gap_px border_px : Nat) : Region :=
  let gpx := if gapless then 0 else gap_px
  let padding := 2 * (border_px + gpx)
  -- Check that the resulting size would not be zero or negative
  if region.w ≤ padding ∨ region.h ≤ padding then region
  else Region.new (region.x + gpx) (region.y + gpx) (region.w - padding) (region.h - padding)

/-- A display-connection command issued by the arrangement pipeline
(`position_client`, `map_client`, `unmap_client`, `raise_client`). -/
inductive Cmd where
  | position (id : Xid) (r : Region) (border : Nat)
  | map (id : Xid)
  | unmap (id : Xid)
  | raise (id : Xid)
deriving DecidableEq, Repr

/-- Is a command a raise-to-top command? -/
def Cmd.isRaise : Cmd → Bool
  | Cmd.raise _ => true
  | _ => false

/-- Errors surfaced by the pipeline: a rejected display-connection command,
or a bookkeeping error from `get_arrange_actions` (abstracted by a code). -/
inductive Err where
  | cmdFailed (c : Cmd)
  | other (code : Nat)
deriving DecidableEq, Repr

/-- `HookName` (only the variant the pipeline emits). -/
inductive HookName where
  | LayoutApplied (wix : Nat) (i : Nat)
deriving DecidableEq, Repr

/-- `EventAction` (only the variant the pipeline emits). -/
inductive EventAction where
  | RunHook (h : HookName)
deriving DecidableEq, Repr

/-- `ArrangeActions`: ordered tiled placement decisions plus the floating id
set, as returned by `get_arrange_actions`. -/
structure ArrangeActions where
  actions : List (Xid × Option Region)
  floating : List Xid

/-- A screen; `region b` models `Screen::region(show_bar)` (the full region,
minus the bar strip when `b` is set).  The screen bookkeeping lives outside
the sources at hand, so the accessor is kept abstract. -/
structure Screen where
  region : Bool → Region

/-- The slice of `Config` the pipeline reads (`config.rs`; the remaining
user-facing fields are never consulted by the arrangement core). -/
structure Config where
  border_px : Nat
  gap_px : Nat
  show_bar : Bool

/-- The window-manager state visible to `apply_layout` / `layout_visible`.

The workspace/screen/client bookkeeping collaborators are not part of the
sources at hand, so their read accessors (`visible_workspaces`,
`indexed_screen_for_workspace`, `client_ids`, `get_arrange_actions`) are
abstract function-valued fields, and the display connection is the success
predicate `conn` over commands.  `mapped` is the set of currently mapped
windows consulted by `map_if_needed` / `unmap_if_needed`, and `trace` records
the display-connection commands successfully issued so far (specification
instrumentation for ordering and failure claims). -/
structure WindowManager where
  visible : List Nat
  screenFor : Nat → Option (Nat × Screen)
  config : Config
  clientIds : Nat → List Xid
  getArrangeActions : Nat → Region → List Xid → Except Err (LayoutConf × ArrangeActions)
  conn : Cmd → Bool
  mapped : List Xid
  trace : List Cmd

/-- Issue one display-connection command: on success it is appended to the
trace, on failure the error names the rejected command and nothing is
recorded. -/
def issueCmd (c : Cmd) (wm : WindowManager) : WindowManager × Option Err :=
  if wm.conn c then ({ wm with trace := wm.trace ++ [c] }, none)
  else (wm, some (Err.cmdFailed c))

/-- Modelled from the spec: `clients.map_if_needed` (client bookkeeping is not
part of the sources at hand) — "ensure the window is mapped (visible) if it is
not already". -/
def map_if_needed (id : Xid) (wm : WindowManager) : WindowManager × Option Err :=
  if id ∈ wm.mapped then (wm, none)
  else
    match issueCmd (Cmd.map id) wm with
    | (wm1, none) => ({ wm1 with mapped := id :: wm1.mapped }, none)
    | (wm1, some e) => (wm1, some e)

/-- Modelled from the spec: `clients.unmap_if_needed` — "ensure the window is
unmapped (hidden) if it is currently mapped". -/
def unmap_if_needed (id : Xid) (wm : WindowManager) : WindowManager × Option Err :=
  if id ∈ wm.mapped then
    match issueCmd (Cmd.unmap id) wm with
    | (wm1, none) => ({ wm1 with mapped := wm1.mapped.erase id }, none)
    | (wm1, some e) => (wm1, some e)
  else (wm, none)

/-- The first loop of `apply_layout` (`src/core/manager/layout.rs`): for each
tiled action, place-and-map, or unmap; the `?` operator stops at the first
error, keeping the mutations made so far. -/
def runActions (gapless : Bool) (gap_px border_px : Nat) :
    List (Xid × Option Region) → WindowManager → WindowManager × Option Err
  | [], wm => (wm, none)
  | (id, some region) :: rest, wm =>
    let reg := pad_region region gapless gap_px border_px
    match issueCmd (Cmd.position id reg border_px) wm with
    | (wm1, some e) => (wm1, some e)
    | (wm1, none) =>
      match map_if_needed id wm1 with
      | (wm2, some e) => (wm2, some e)
      | (wm2, none) => runActions gapless gap_px border_px rest wm2
  | (id, none) :: rest, wm =>
    match unmap_if_needed id wm with
    | (wm1, some e) => (wm1, some e)
    | (wm1, none) => runActions gapless gap_px border_px rest wm1

/-- The second loop of `apply_layout`: raise every floating client, stopping
at the first error. -/
def raiseFloating : List Xid → WindowManager → WindowManager × Option Err
  | [], wm => (wm, none)
  | id :: rest, wm =>
    match issueCmd (Cmd.raise id) wm with
    | (wm1, some e) => (wm1, some e)
    | (wm1, none) => raiseFloating rest wm1

/-- `apply_layout` from `src/core/manager/layout.rs`. -/
def apply_layout (wm : WindowManager) (wix : Nat) :
    WindowManager × Except Err (Option EventAction) :=
  match wm.screenFor wix with
  | none => (wm, Except.ok none)
  | some (i, s) =>
    match wm.getArrangeActions wix (s.region wm.config.show_bar) (wm.clientIds wix) with
    | Except.error e => (wm, Except.error e)
    | Except.ok (lc, aa) =>
      match runActions lc.gapless wm.config.gap_px wm.config.border_px aa.actions wm with
      | (wm1, some e) => (wm1, Except.error e)
      | (wm1, none) =>
        match raiseFloating aa.floating wm1 with
        | (wm2, some e) => (wm2, Except.error e)
        | (wm2, none) =>
          (wm2, Except.ok (some (EventAction.RunHook (HookName.LayoutApplied wix i))))

/-- The fold behind `layout_visible`: apply each visible workspace in order,
short-circuiting on the first error (Rust's `collect::<Result<Vec<_>>>`) and
dropping `None` results (`flat_map` + `transpose`). -/
def layout_visible_aux : List Nat → WindowManager → WindowManager × Except Err (List EventAction)
  | [], wm => (wm, Except.ok [])
  | wix :: rest, wm =>
    match apply_layout wm wix with
    | (wm1, Except.error e) => (wm1, Except.error e)
    | (wm1, Except.ok none) => layout_visible_aux rest wm1
    | (wm1, Except.ok (some a)) =>
      match layout_visible_aux rest wm1 with
      | (wm2, Except.error e) => (wm2, Except.error e)
      | (wm2, Except.ok actions) => (wm2, Except.ok (a :: actions))

/-- `layout_visible` from `src/core/manager/layout.rs`. -/
def layout_visible (wm : WindowManager) : WindowManager × Except Err (List EventAction) :=
  layout_visible_aux wm.visible wm

/-- Two concrete layouts with identical data fields but different placement
functions, used to show that `Layout.eq` ignores the held function. -/
def layoutA : Layout :=
  { conf := LayoutConf.default
    symbol := "[side]"
    max_main := 1
    ratio := 1 / 2
    f := some (fun _ _ _ _ _ => []) }

/-- Same data fields as `layoutA`, behaviourally different placement function. -/
def layoutB : Layout :=
  { conf := LayoutConf.default
    symbol := "[side]"
    max_main := 1
    ratio := 1 / 2
    f := some (fun _ _ _ _ _ => [(0, none)]) }

/-- `position_floating_client` from `src/core/manager/util.rs`.  The display
connection is abstracted to the geometry query; the function returns the one
placement command it issues (`conn.position_client(id, reg, border_px, false)`).
(The source destructures `values()`; field access is used directly here.) -/
def position_floating_client (client_geometry : Xid → Except Err Region) (id : Xid)
    (screen_region : Region) (border_px : Nat) : Except Err Cmd :=
  match client_geometry id with
  | Except.error e => Except.error e
  | Except.ok default_position =>
    let x := if default_position.x < screen_region.x then screen_region.x
      else default_position.x
    let y := if default_position.y < screen_region.y then screen_region.y
      else default_position.y
    let w := default_position.w
    let h := default_position.h
    -- Check that the resulting size would not be negative
    let reg :=
      if w ≥ 2 * border_px ∧ h ≥ 2 * border_px then
        Region.new (x + border_px) (y + border_px) (w - 2 * border_px) (h - 2 * border_px)
      else Region.new x y w h
    Except.ok (Cmd.position id reg border_px)

/-- Specification helper: the command sequence one `apply_layout` pass issues
when every display command succeeds, computed from the tiled actions and the
initial mapped set.  Execution follows this plan up to its first rejected
command, so it also describes every failing pass. -/
def plannedTiled (gapless : Bool) (gap_px border_px : Nat) :
    List (Xid × Option Region) → List Xid → List Cmd
  | [], _ => []
  | (id, some region) :: rest, mapped =>
    let reg := pad_region region gapless gap_px border_px
    Cmd.position id reg border_px ::
      (if id ∈ mapped then plannedTiled gapless gap_px border_px rest mapped
        else Cmd.map id :: plannedTiled gapless gap_px border_px rest (id :: mapped))
  | (id, none) :: rest, mapped =>
    if id ∈ mapped then
      Cmd.unmap id :: plannedTiled gapless gap_px border_px rest (mapped.erase id)
    else plannedTiled gapless gap_px border_px rest mapped

/-- Specification helper: the full planned command sequence of one
`apply_layout` pass — all tiled commands, then one raise per floating id. -/
def plannedCmds (lc : LayoutConf) (gap_px border_px : Nat) (aa : ArrangeActions)
    (mapped : List Xid) : List Cmd :=
  plannedTiled lc.gapless gap_px border_px aa.actions mapped
    ++ aa.floating.map Cmd.raise

/-- Specification helper: run a command list against the connection's success
predicate, returning the successfully issued prefix and the first failure. -/
def runList (ok : Cmd → Bool) : List Cmd → List Cmd × Option Err
  | [] => ([], none)
  | c :: cs =>
    if ok c then (c :: (runList ok cs).1, (runList ok cs).2)
    else ([], some (Err.cmdFailed c))

/-- A concrete screen for witnesses. -/
def screen0 : Screen := ⟨fun _ => Region.new 0 0 100 100⟩

/-- Concrete arrange actions for the failure witness: one tiled placement and
one floating id. -/
def aaFail : ArrangeActions :=
  { actions := [(1, some (Region.new 0 0 50 50))]
    floating := [2] }

/-- A concrete window manager whose display connection rejects every raise
command, used to witness the failure-propagation claim. -/
def wmFail : WindowManager :=
  { visible := [7]
    screenFor := fun wix => if wix = 7 then some (0, screen0) else none
    config := { border_px := 1, gap_px := 1, show_bar := false }
    clientIds := fun _ => [1, 2]
    getArrangeActions := fun _ _ _ => Except.ok (LayoutConf.default, aaFail)
    conn := fun c => !c.isRaise
    mapped := []
    trace := [] }

/-- A concrete window manager that shows no workspace on any screen, used to
witness the hidden-workspace claim. -/
def wmHidden : WindowManager :=
  { visible := []
    screenFor := fun _ => none
    config := { border_px := 2, gap_px := 5, show_bar := true }
    clientIds := fun _ => []
    getArrangeActions := fun _ _ _ => Except.error (Err.other 0)
    conn := fun _ => true
    mapped := [4]
    trace := [] }

/-- Claim C1: `pad_region` returns the region unchanged when either dimension
is at most `2 * (border_px + effective_gap)`, and otherwise shifts the origin
by the effective gap and shrinks both dimensions by the total padding; in
particular the two concrete examples of the spec hold. -/
theorem pad_region_spec (r : Region) (gapless : Bool) (gap_px border_px : Nat) :
    ((r.w ≤ 2 * (border_px + (if gapless then 0 else gap_px))
        ∨ r.h ≤ 2 * (border_px + (if gapless then 0 else gap_px))) →
      pad_region r gapless gap_px border_px = r)
    ∧ (2 * (border_px + (if gapless then 0 else gap_px)) < r.w
        ∧ 2 * (border_px + (if gapless then 0 else gap_px)) < r.h →
      pad_region r gapless gap_px border_px =
        Region.new (r.x + (if gapless then 0 else gap_px))
          (r.y + (if gapless then 0 else gap_px))
          (r.w - 2 * (border_px + (if gapless then 0 else gap_px)))
          (r.h - 2 * (border_px + (if gapless then 0 else gap_px))))
    ∧ pad_region (Region.new 0 0 200 100) false 10 3 = Region.new 10 10 174 74
    ∧ pad_region (Region.new 0 0 200 100) true 10 3 = Region.new 0 0 194 94 := by
  refine ⟨?_, ?_, by decide, by decide⟩
  · intro h
    simp only [pad_region]
    rw [if_pos h]
  · intro h
    simp only [pad_region]
    rw [if_neg]
    omega

/-- Witness for C1 at concrete inputs: the too-small region of the source's
`pad_region_tiny` test is returned unchanged. -/
theorem pad_region_spec_witness :
    pad_region (Region.new 0 0 3 3) false 10 3 = Region.new 0 0 3 3 :=
  (pad_region_spec (Region.new 0 0 3 3) false 10 3).1 (by decide)

/-- Counterexample to claim C5 as stated: for the degenerate input region
`(0, 0, 0, 5)` (zero width) the guard fires and `pad_region` returns the
input unchanged, so the result does not have positive width. -/
theorem pad_region_zero_size :
    ¬ (0 < (pad_region (Region.new 0 0 0 5) false 0 0).w
        ∧ 0 < (pad_region (Region.new 0 0 0 5) false 0 0).h) := by
  decide

/-- Claim C5 (amended): for every input region with positive width and
positive height, the region returned by `pad_region` has positive width and
positive height, whatever the gapless flag, gap and border are. -/
theorem pad_region_positive (r : Region) (gapless : Bool) (gap_px border_px : Nat)
    (hw : 0 < r.w) (hh : 0 < r.h) :
    0 < (pad_region r gapless gap_px border_px).w
      ∧ 0 < (pad_region r gapless gap_px border_px).h := by
  simp only [pad_region]
  split <;> split
  · exact ⟨hw, hh⟩
  · simp only [Region.new]
    omega
  · exact ⟨hw, hh⟩
  · simp only [Region.new]
    omega

/-- Witness for the amended C5 at a concrete input. -/
theorem pad_region_positive_witness :
    0 < (pad_region (Region.new 0 0 200 100) false 10 3).w
      ∧ 0 < (pad_region (Region.new 0 0 200 100) false 10 3).h :=
  pad_region_positive (Region.new 0 0 200 100) false 10 3 (by decide) (by decide)

/-- One `update_main_ratio` call always lands in `[0, 1]`: the clamp runs
unconditionally after the change is applied. -/
theorem update_main_ratio_mem (l : Layout) (c : Change) (s : ℚ) :
    0 ≤ (l.update_main_ratio c s).ratio ∧ (l.update_main_ratio c s).ratio ≤ 1 := by
  cases c <;>
    · simp only [Layout.update_main_ratio]
      split
      · simp
      · split
        · simp
        · rename_i h1 h2
          exact ⟨le_of_not_lt h1, le_of_not_lt h2⟩

/-- Claim C4: starting from a ratio in `[0, 1]`, a single `update_main_ratio`
call with any change and step keeps the ratio in `[0, 1]`, and so does any
sequence of such calls, however far out of range the unclamped value would
have gone. -/
theorem update_main_ratio_clamped (l : Layout)
    (h0 : 0 ≤ l.ratio) (h1 : l.ratio ≤ 1) :
    (∀ (c : Change) (s : ℚ),
      0 ≤ (l.update_main_ratio c s).ratio ∧ (l.update_main_ratio c s).ratio ≤ 1)
    ∧ ∀ steps : List (Change × ℚ),
      0 ≤ (steps.foldl (fun acc p => acc.update_main_ratio p.1 p.2) l).ratio
        ∧ (steps.foldl (fun acc p => acc.update_main_ratio p.1 p.2) l).ratio ≤ 1 := by
  refine ⟨fun c s => update_main_ratio_mem l c s, fun steps => ?_⟩
  induction steps generalizing l with
  | nil => exact ⟨h0, h1⟩
  | cons p rest ih =>
    have h := update_main_ratio_mem l p.1 p.2
    simpa using ih (l.update_main_ratio p.1 p.2) h.1 h.2

/-- Witness for C4 at a concrete layout, driving the ratio far below zero. -/
theorem update_main_ratio_clamped_witness :
    0 ≤ (([(Change.Less, (5 : ℚ)), (Change.Less, 7)].foldl
        (fun acc p => acc.update_main_ratio p.1 p.2)
        (Layout.new "[side]" LayoutConf.default layouts.floating 1 1)).ratio)
      ∧ (([(Change.Less, (5 : ℚ)), (Change.Less, 7)].foldl
        (fun acc p => acc.update_main_ratio p.1 p.2)
        (Layout.new "[side]" LayoutConf.default layouts.floating 1 1)).ratio) ≤ 1 :=
  (update_main_ratio_clamped
      (Layout.new "[side]" LayoutConf.default layouts.floating 1 1)
      (le_of_lt one_pos) (le_refl 1)).2
    [(Change.Less, 5), (Change.Less, 7)]

/-- Claim C8: `update_max_main More` increments `max_main` by exactly one and
`update_max_main Less` decrements it by exactly one except at zero, where it
stays zero. -/
theorem update_max_main_spec (l : Layout) :
    ((l.update_max_main Change.More).max_main = l.max_main + 1)
    ∧ (0 < l.max_main →
      (l.update_max_main Change.Less).max_main = l.max_main - 1)
    ∧ (l.max_main = 0 → (l.update_max_main Change.Less).max_main = 0) := by
  refine ⟨rfl, fun h => ?_, fun h => ?_⟩
  · simp only [Layout.update_max_main]
    rw [if_pos h]
  · simp only [Layout.update_max_main]
    rw [if_neg (by omega)]
    exact h

/-- Witness for C8: the saturating decrement at zero, on a concrete layout. -/
theorem update_max_main_spec_witness :
    ((Layout.new "[side]" LayoutConf.default layouts.floating 0 1).update_max_main
        Change.Less).max_main = 0 :=
  (update_max_main_spec
      (Layout.new "[side]" LayoutConf.default layouts.floating 0 1)).2.2 rfl

/-- Claim C9: `Layout` equality holds exactly when `conf`, `symbol`,
`max_main` and `ratio` agree; the placement function plays no part, so the two
concrete layouts with different functions compare equal. -/
theorem layout_eq_ignores_f :
    (∀ a b : Layout,
      Layout.eq a b = true ↔
        (a.conf = b.conf ∧ a.symbol = b.symbol
          ∧ a.max_main = b.max_main ∧ a.ratio = b.ratio))
    ∧ (Layout.eq layoutA layoutB = true ∧ layoutA.f ≠ layoutB.f) := by
  refine ⟨fun a b => ?_, ?_, fun h => ?_⟩
  · simp [Layout.eq, Bool.and_eq_true, decide_eq_true_iff, and_assoc]
  · simp [Layout.eq, layoutA, layoutB]
  · have h2 := congrArg
      (fun o : Option LayoutFunc =>
        o.map (fun g => g [] none (Region.new 0 0 0 0) 0 0)) h
    simp [layoutA, layoutB] at h2

/-- Claim C10: every layout built by `Layout.new` or `Layout.floating` holds a
placement function, so `arrange` never reaches the missing-layout-function
panic branch (modelled as `none`). -/
theorem constructed_layout_arranges :
    (∀ (symbol : String) (conf : LayoutConf) (f : LayoutFunc) (m : Nat) (r : ℚ)
      (clients : List Client) (focused : Option Xid) (reg : Region),
      ((Layout.new symbol conf f m r).arrange clients focused reg).isSome = true)
    ∧ ∀ (symbol : String) (clients : List Client) (focused : Option Xid) (reg : Region),
      ((Layout.floating symbol).arrange clients focused reg).isSome = true := by
  constructor
  · intro symbol conf f m r clients focused reg
    rfl
  · intro symbol clients focused reg
    rfl

/-- Every command in the successfully issued prefix occurs in the plan. -/
lemma runList_mem (ok : Cmd → Bool) :
    ∀ (l : List Cmd) (c : Cmd), c ∈ (runList ok l).1 → c ∈ l := by
  intro l
  induction l with
  | nil => simp [runList]
  | cons c cs ih =>
    intro d
    cases h : ok c with
    | false => simp [runList, h]
    | true =>
      simp only [runList, h, if_pos, List.mem_cons]
      rintro (rfl | hd)
      · exact Or.inl rfl
      · exact Or.inr (ih d hd)

/-- Every command in the successfully issued prefix was accepted. -/
lemma runList_sound (ok : Cmd → Bool) :
    ∀ (l : List Cmd) (c : Cmd), c ∈ (runList ok l).1 → ok c = true := by
  intro l
  induction l with
  | nil => simp [runList]
  | cons c cs ih =>
    intro d
    cases h : ok c with
    | false => simp [runList, h]
    | true =>
      simp only [runList, h, if_pos, List.mem_cons]
      rintro (rfl | hd)
      · exact h
      · exact ih d hd

/-- A run failure names a command the connection rejected. -/
lemma runList_error (ok : Cmd → Bool) :
    ∀ (l : List Cmd) (e : Err), (runList ok l).2 = some e →
      ∃ c, e = Err.cmdFailed c ∧ ok c = false := by
  intro l
  induction l with
  | nil => simp [runList]
  | cons c cs ih =>
    intro e
    cases h : ok c with
    | false =>
      simp only [runList, h]
      intro he
      exact ⟨c, (Option.some.inj he).symm, h⟩
    | true =>
      simp only [runList, h, if_pos]
      exact ih e

/-- Running an appended plan whose first part fully succeeds continues into
the second part. -/
lemma runList_append_ok (ok : Cmd → Bool) :
    ∀ (a b : List Cmd), (runList ok a).2 = none →
      runList ok (a ++ b) = ((runList ok a).1 ++ (runList ok b).1, (runList ok b).2) := by
  intro a
  induction a with
  | nil => simp [runList]
  | cons c cs ih =>
    intro b
    cases h : ok c with
    | false => simp [runList, h]
    | true =>
      intro hnone
      simp only [runList, h, if_pos] at hnone
      simp [runList, h, ih b hnone]

/-- Running an appended plan whose first part fails never reaches the second
part. -/
lemma runList_append_err (ok : Cmd → Bool) :
    ∀ (a b : List Cmd) (e : Err), (runList ok a).2 = some e →
      runList ok (a ++ b) = ((runList ok a).1, some e) := by
  intro a
  induction a with
  | nil => simp [runList]
  | cons c cs ih =>
    intro b e
    cases h : ok c with
    | false =>
      intro he
      simp [runList, h] at he ⊢
      exact he
    | true =>
      intro hsome
      simp only [runList, h, if_pos] at hsome
      simp [runList, h, ih b e hsome]

/-- The planned tiled commands contain no raise command. -/
lemma plannedTiled_not_raise (gapless : Bool) (gap border : Nat) :
    ∀ (acts : List (Xid × Option Region)) (mapped : List Xid) (c : Cmd),
      c ∈ plannedTiled gapless gap border acts mapped → c.isRaise = false := by
  intro acts
  induction acts with
  | nil => simp [plannedTiled]
  | cons hd rest ih =>
    intro mapped c
    obtain ⟨id, oreg⟩ := hd
    cases oreg with
    | some region =>
      simp only [plannedTiled, List.mem_cons]
      rintro (rfl | hmem)
      · rfl
      · by_cases hm : id ∈ mapped
        · rw [if_pos hm] at hmem
          exact ih mapped c hmem
        · rw [if_neg hm] at hmem
          rcases List.mem_cons.mp hmem with rfl | hmem
          · rfl
          · exact ih (id :: mapped) c hmem
    | none =>
      simp only [plannedTiled]
      by_cases hm : id ∈ mapped
      · rw [if_pos hm]
        intro hmem
        rcases List.mem_cons.mp hmem with rfl | hmem
        · rfl
        · exact ih (mapped.erase id) c hmem
      · rw [if_neg hm]
        exact ih mapped c

/-- The first loop of `apply_layout` issues exactly the successful prefix of
the planned tiled commands, reports the plan's first failure, and leaves the
connection untouched. -/
lemma runActions_spec (gapless : Bool) (gap border : Nat) :
    ∀ (acts : List (Xid × Option Region)) (wm : WindowManager),
      (runActions gapless gap border acts wm).1.trace
          = wm.trace ++ (runList wm.conn (plannedTiled gapless gap border acts wm.mapped)).1
        ∧ (runActions gapless gap border acts wm).2
          = (runList wm.conn (plannedTiled gapless gap border acts wm.mapped)).2
        ∧ (runActions gapless gap border acts wm).1.conn = wm.conn := by
  intro acts
  induction acts with
  | nil => intro wm; simp [runActions, plannedTiled, runList]
  | cons hd rest ih =>
    intro wm
    obtain ⟨id, oreg⟩ := hd
    cases oreg with
    | some region =>
      cases hp : wm.conn (Cmd.position id (pad_region region gapless gap border) border) with
      | false =>
        simp [runActions, plannedTiled, runList, issueCmd, hp]
      | true =>
        by_cases hm : id ∈ wm.mapped
        · have h2 := ih { wm with
            trace := wm.trace ++ [Cmd.position id (pad_region region gapless gap border) border] }
          simp only [runActions, plannedTiled, runList, issueCmd, map_if_needed, hp, hm] at h2 ⊢
          simp [hm] at h2 ⊢
          exact h2
        · cases hq : wm.conn (Cmd.map id) with
          | false =>
            simp [runActions, plannedTiled, runList, issueCmd, map_if_needed, hp, hm, hq]
          | true =>
            have h2 := ih { wm with
              trace := wm.trace ++ [Cmd.position id (pad_region region gapless gap border) border]
                ++ [Cmd.map id]
              mapped := id :: wm.mapped }
            simp only [runActions, plannedTiled, runList, issueCmd, map_if_needed, hp, hm, hq] at h2 ⊢
            simp [hm, hp, hq] at h2 ⊢
            exact h2
    | none =>
      by_cases hm : id ∈ wm.mapped
      · cases hq : wm.conn (Cmd.unmap id) with
        | false =>
          simp [runActions, plannedTiled, runList, issueCmd, unmap_if_needed, hm, hq]
        | true =>
          have h2 := ih { wm with
            trace := wm.trace ++ [Cmd.unmap id]
            mapped := wm.mapped.erase id }
          simp only [runActions, plannedTiled, runList, issueCmd, unmap_if_needed, hm, hq] at h2 ⊢
          simp [hm] at h2 ⊢
          exact h2
      · have h2 := ih wm
        simp only [runActions, plannedTiled, unmap_if_needed, hm] at h2 ⊢
        simp [hm] at h2 ⊢
        exact h2

/-- The second loop of `apply_layout` issues exactly the successful prefix of
the raise commands, reports the first failure, and leaves the connection
untouched. -/
lemma raiseFloating_spec :
    ∀ (ids : List Xid) (wm : WindowManager),
      (raiseFloating ids wm).1.trace = wm.trace ++ (runList wm.conn (ids.map Cmd.raise)).1
        ∧ (raiseFloating ids wm).2 = (runList wm.conn (ids.map Cmd.raise)).2
        ∧ (raiseFloating ids wm).1.conn = wm.conn := by
  intro ids
  induction ids with
  | nil => intro wm; simp [raiseFloating, runList]
  | cons id rest ih =>
    intro wm
    cases hp : wm.conn (Cmd.raise id) with
    | false => simp [raiseFloating, runList, issueCmd, hp]
    | true =>
      have h2 := ih { wm with trace := wm.trace ++ [Cmd.raise id] }
      simp only [raiseFloating, runList, issueCmd, hp] at h2 ⊢
      simp [hp] at h2 ⊢
      exact h2

/-- One `apply_layout` pass on a shown workspace behaves exactly like running
its planned command sequence: the trace gains the successful prefix of the
plan, and the result is the hook notification on full success or the plan's
first failure. -/
lemma apply_layout_spec (wm : WindowManager) (wix i : Nat) (s : Screen)
    (lc : LayoutConf) (aa : ArrangeActions)
    (hs : wm.screenFor wix = some (i, s))
    (ha : wm.getArrangeActions wix (s.region wm.config.show_bar) (wm.clientIds wix)
      = Except.ok (lc, aa)) :
    (apply_layout wm wix).1.trace
        = wm.trace
          ++ (runList wm.conn (plannedCmds lc wm.config.gap_px wm.config.border_px aa wm.mapped)).1
      ∧ (apply_layout wm wix).2
        = (match (runList wm.conn
              (plannedCmds lc wm.config.gap_px wm.config.border_px aa wm.mapped)).2 with
          | some e => Except.error e
          | none => Except.ok (some (EventAction.RunHook (HookName.LayoutApplied wix i)))) := by
  obtain ⟨ht, he, hc⟩ :=
    runActions_spec lc.gapless wm.config.gap_px wm.config.border_px aa.actions wm
  rcases hr : runActions lc.gapless wm.config.gap_px wm.config.border_px aa.actions wm
    with ⟨wm1, e1⟩
  rw [hr] at ht he hc
  simp only at ht he hc
  cases e1 with
  | some e =>
    have happ := runList_append_err wm.conn
      (plannedTiled lc.gapless wm.config.gap_px wm.config.border_px aa.actions wm.mapped)
      (aa.floating.map Cmd.raise) e he.symm
    simp only [apply_layout, hs, ha, hr, plannedCmds, happ]
    exact ⟨ht, trivial⟩
  | none =>
    obtain ⟨ht2, he2, hc2⟩ := raiseFloating_spec aa.floating wm1
    rcases hr2 : raiseFloating aa.floating wm1 with ⟨wm2, e2⟩
    rw [hr2] at ht2 he2 hc2
    simp only at ht2 he2 hc2
    rw [hc] at ht2 he2
    have happ := runList_append_ok wm.conn
      (plannedTiled lc.gapless wm.config.gap_px wm.config.border_px aa.actions wm.mapped)
      (aa.floating.map Cmd.raise) he.symm
    cases e2 with
    | some e =>
      simp only [apply_layout, hs, ha, hr, hr2, plannedCmds, happ]
      constructor
      · rw [ht2, ht, List.append_assoc]
      · rw [← he2]
    | none =>
      simp only [apply_layout, hs, ha, hr, hr2, plannedCmds, happ]
      constructor
      · rw [ht2, ht, List.append_assoc]
      · rw [← he2]

/-- Claim C2: if a display command fails during an `apply_layout` pass, the
issued trace is exactly the successful prefix of the pass's planned commands
(no rollback, remainder skipped), every issued command was accepted, the
error names a rejected command and is propagated unmodified, and
`layout_visible` on a list starting with that workspace fails immediately
with the same error, without touching the remaining workspaces. -/
theorem apply_layout_error_propagation (wm : WindowManager) (wix i : Nat) (s : Screen)
    (lc : LayoutConf) (aa : ArrangeActions)
    (hs : wm.screenFor wix = some (i, s))
    (ha : wm.getArrangeActions wix (s.region wm.config.show_bar) (wm.clientIds wix)
      = Except.ok (lc, aa)) :
    ((apply_layout wm wix).1.trace
        = wm.trace
          ++ (runList wm.conn (plannedCmds lc wm.config.gap_px wm.config.border_px aa wm.mapped)).1)
    ∧ (∀ c, c ∈ (runList wm.conn
          (plannedCmds lc wm.config.gap_px wm.config.border_px aa wm.mapped)).1 →
        wm.conn c = true)
    ∧ ∀ e, (runList wm.conn
          (plannedCmds lc wm.config.gap_px wm.config.border_px aa wm.mapped)).2 = some e →
        (apply_layout wm wix).2 = Except.error e
          ∧ (∃ c, e = Err.cmdFailed c ∧ wm.conn c = false)
          ∧ ∀ rest, layout_visible_aux (wix :: rest) wm
              = ((apply_layout wm wix).1, Except.error e) := by
  have h := apply_layout_spec wm wix i s lc aa hs ha
  refine ⟨h.1, fun c hc => runList_sound _ _ c hc, fun e hE => ?_⟩
  have h2 : (apply_layout wm wix).2 = Except.error e := by rw [h.2, hE]
  refine ⟨h2, runList_error _ _ e hE, fun rest => ?_⟩
  rcases hq : apply_layout wm wix with ⟨wm1, r⟩
  rw [hq] at h2
  simp only at h2
  subst h2
  simp [layout_visible_aux, hq]

/-- Witness for C2: on the concrete manager whose connection rejects raise
commands, the pass fails with exactly the rejected raise command's error. -/
theorem apply_layout_error_propagation_witness :
    (apply_layout wmFail 7).2 = Except.error (Err.cmdFailed (Cmd.raise 2)) := by
  have h := apply_layout_error_propagation wmFail 7 0 screen0 LayoutConf.default aaFail rfl rfl
  exact (h.2.2 (Err.cmdFailed (Cmd.raise 2)) rfl).1

/-- Claim C3: the trace extension of any `apply_layout` call splits into a
first block with no raise command followed by a block of only raise commands:
every raise of the pass is issued strictly after every tiled
placement/map/unmap command of the pass. -/
theorem raise_after_tiled (wm : WindowManager) (wix : Nat) :
    ∃ t1 t2, (apply_layout wm wix).1.trace = wm.trace ++ t1 ++ t2
      ∧ (∀ c ∈ t1, c.isRaise = false)
      ∧ (∀ c ∈ t2, c.isRaise = true) := by
  cases hsf : wm.screenFor wix with
  | none =>
    refine ⟨[], [], ?_, by simp, by simp⟩
    simp [apply_layout, hsf]
  | some p =>
    obtain ⟨i, s⟩ := p
    cases hga : wm.getArrangeActions wix (s.region wm.config.show_bar) (wm.clientIds wix) with
    | error e =>
      refine ⟨[], [], ?_, by simp, by simp⟩
      simp [apply_layout, hsf, hga]
    | ok r =>
      obtain ⟨lc, aa⟩ := r
      have h := (apply_layout_spec wm wix i s lc aa hsf hga).1
      rw [show plannedCmds lc wm.config.gap_px wm.config.border_px aa wm.mapped
          = plannedTiled lc.gapless wm.config.gap_px wm.config.border_px aa.actions wm.mapped
            ++ aa.floating.map Cmd.raise from rfl] at h
      generalize hA : plannedTiled lc.gapless wm.config.gap_px wm.config.border_px
        aa.actions wm.mapped = A at h
      generalize hB : aa.floating.map Cmd.raise = B at h
      cases hE : (runList wm.conn A).2 with
      | some e =>
        rw [runList_append_err wm.conn A B e hE] at h
        refine ⟨(runList wm.conn A).1, [], ?_, ?_, by simp⟩
        · simpa using h
        · intro c hc
          have hmem := runList_mem wm.conn A c hc
          rw [← hA] at hmem
          exact plannedTiled_not_raise _ _ _ _ _ c hmem
      | none =>
        rw [runList_append_ok wm.conn A B hE] at h
        refine ⟨(runList wm.conn A).1, (runList wm.conn B).1, ?_, ?_, ?_⟩
        · simpa [List.append_assoc] using h
        · intro c hc
          have hmem := runList_mem wm.conn A c hc
          rw [← hA] at hmem
          exact plannedTiled_not_raise _ _ _ _ _ c hmem
        · intro c hc
          have hmem := runList_mem wm.conn B c hc
          rw [← hB] at hmem
          obtain ⟨id, _, rfl⟩ := List.mem_map.mp hmem
          rfl

/-- Claim C6: on a workspace shown on no screen, `apply_layout` succeeds with
no notification and leaves the whole state — trace included — unchanged, so
no display command is issued. -/
theorem apply_layout_hidden_noop (wm : WindowManager) (wix : Nat)
    (h : wm.screenFor wix = none) :
    apply_layout wm wix = (wm, Except.ok none) := by
  simp [apply_layout, h]

/-- Witness for C6 on a concrete manager showing no workspace. -/
theorem apply_layout_hidden_noop_witness :
    apply_layout wmHidden 3 = (wmHidden, Except.ok none) :=
  apply_layout_hidden_noop wmHidden 3 rfl

/-- Claim C7: `position_floating_client` issues exactly one placement command;
its origin is clamped to the screen origin (never further up or left), the
size is shrunk by `2 * border_px` on both axes when both dimensions are at
least `2 * border_px` and respected unchanged otherwise; the two concrete
scenarios of the spec hold. -/
theorem position_floating_client_spec (geom : Xid → Except Err Region) (id : Xid)
    (sr : Region) (b : Nat) (g : Region) (hg : geom id = Except.ok g) :
    (∃ reg : Region,
      position_floating_client geom id sr b = Except.ok (Cmd.position id reg b)
        ∧ sr.x ≤ reg.x ∧ sr.y ≤ reg.y
        ∧ (2 * b ≤ g.w ∧ 2 * b ≤ g.h → reg.w = g.w - 2 * b ∧ reg.h = g.h - 2 * b)
        ∧ (¬(2 * b ≤ g.w ∧ 2 * b ≤ g.h) → reg.w = g.w ∧ reg.h = g.h))
    ∧ position_floating_client (fun _ => Except.ok (Region.new 0 0 400 300)) 0
        (Region.new 0 0 0 0) 2
      = Except.ok (Cmd.position 0 (Region.new 2 2 396 296) 2)
    ∧ position_floating_client (fun _ => Except.ok (Region.new 0 0 4 3)) 0
        (Region.new 0 0 0 0) 2
      = Except.ok (Cmd.position 0 (Region.new 0 0 4 3) 2) := by
  refine ⟨?_, rfl, rfl⟩
  simp only [position_floating_client, hg]
  by_cases hwh : g.w ≥ 2 * b ∧ g.h ≥ 2 * b
  · rw [if_pos hwh]
    refine ⟨_, rfl, ?_, ?_, fun _ => ⟨rfl, rfl⟩, fun hcontra => absurd hwh hcontra⟩
    · simp only [Region.new]
      split <;> omega
    · simp only [Region.new]
      split <;> omega
  · rw [if_neg hwh]
    refine ⟨_, rfl, ?_, ?_, fun hcond => absurd hcond hwh, fun _ => ⟨rfl, rfl⟩⟩
    · simp only [Region.new]
      split <;> omega
    · simp only [Region.new]
      split <;> omega

/-- Witness for C7: the spec's Scenario C evaluated through the theorem. -/
theorem position_floating_client_spec_witness :
    position_floating_client (fun _ => Except.ok (Region.new 0 0 400 300)) 0
        (Region.new 0 0 0 0) 2
      = Except.ok (Cmd.position 0 (Region.new 2 2 396 296) 2) :=
  (position_floating_client_spec (fun _ => Except.ok (Region.new 0 0 400 300)) 0
      (Region.new 0 0 0 0) 2 (Region.new 0 0 400 300) rfl).2.1

end Penrose
